import Mathlib

/-!
# Verification of the repertoire-deviation analysis engine

Shallow embedding of the core of the `chess_coachAI` repository:

* `opening_detector.py` — `DeviationResult`, `OpeningDetector.find_deviation`
* `stockfish_evaluator.py` — `EvalResult`, `score_for_color`, `evaluate`
* `repertoire_analyzer.py` — `OpeningEvaluation`, `OpeningStats`, `_aggregate`,
  `_compute_eval_loss`, `_preprocess_game`, `analyze_repertoire`
  (sequential and parallel paths)
* `game_cache.py` — `_eval_to_row`, `_row_to_evaluation`, evaluation save/get

External collaborators (the `python-chess` board/move library, the polyglot
book reader, the engine process, SQLite) are modelled by their contracts:

* A chess move is its UCI string (the library's `Move` supports equality and
  `uci()`; every move in this code is only compared and re-encoded).
* Every board in the analyzed code is reached from the standard starting
  position by a sequence of `push` calls, so a board is modelled by that move
  sequence; `turn` alternates starting with White, and the library's `fen()`
  serialization is modelled by a canonical encoding of the board value.
* The polyglot reader is a read-only function from a position to the list of
  endorsed moves (`reader.find_all`).
* The engine's reply to `analyse` is a record (score-or-mate, pv, depth);
  a deterministic engine is a function from a board to a reply.
* The SQLite table `opening_evaluations` with `PRIMARY KEY (game_url, depth)`
  is a list of rows upserted by that key.
-/

namespace ChessCoach

/-- A chess move, identified by its UCI encoding (external library contract:
moves support equality comparison and `uci()` re-encoding). -/
abbrev Move := String

/-- A board position, modelled by the sequence of moves pushed from the
standard starting position (every board handled by the analyzed code is
produced this way: `chess.Board()` then `push`/`copy`). -/
structure Board where
  pushed : List Move
deriving DecidableEq, Repr

/-- `chess.Board()` — the standard starting position. -/
def Board.start : Board := ⟨[]⟩

/-- `board.push(move)` (the copy-then-push discipline of the source makes
this a pure operation). -/
def Board.push (b : Board) (m : Move) : Board := ⟨b.pushed ++ [m]⟩

/-- `board.turn == chess.WHITE`: White moves on even plies from the start. -/
def Board.turnWhite (b : Board) : Bool := b.pushed.length % 2 == 0

/-- `board.fen()` — the library's position serialization, modelled by a
canonical injective encoding of the board value. -/
def Board.fen (b : Board) : String := String.intercalate " " b.pushed

/-! ## opening_detector.py -/

/-- `DeviationResult` (opening_detector.py, lines 10–18). -/
structure DeviationResult where
  deviation_ply : Nat
  deviating_side : String
  board_at_deviation : Board
  is_fully_booked : Bool
  played_move : Option Move := none
  book_moves : List Move := []
deriving DecidableEq, Repr

/-- The loop of `OpeningDetector.find_deviation` (lines 43–68): walk the moves
from `board`, remembering the last fully-booked position; `ply` is the index
of the head of the remaining moves.  `reader` is the polyglot book:
`reader board` is the list of book moves at that position
(`[entry.move for entry in reader.find_all(board)]`). -/
def findDeviationAux (reader : Board → List Move) :
    Board → Board → Nat → List Move → DeviationResult
  | _, lastBooked, ply, [] =>
      { deviation_ply := ply
        deviating_side := "none"
        board_at_deviation := lastBooked
        is_fully_booked := true }
  | board, _, ply, move :: rest =>
      let book_moves := reader board
      if move ∈ book_moves then
        findDeviationAux reader (board.push move) board (ply + 1) rest
      else
        { deviation_ply := ply
          deviating_side := if board.turnWhite then "white" else "black"
          board_at_deviation := board
          is_fully_booked := false
          played_move := some move
          book_moves := book_moves }

/-- `OpeningDetector.find_deviation(moves)` (opening_detector.py, lines 28–68):
returns `none` for an empty move list, otherwise walks the moves against the
book.  Both the running board and `last_booked_board` start at the initial
position. -/
def find_deviation (reader : Board → List Move) (moves : List Move) :
    Option DeviationResult :=
  if moves = [] then none
  else some (findDeviationAux reader Board.start Board.start 0 moves)

theorem findDeviationAux_spec (reader : Board → List Move) :
    ∀ (ms : List Move) (board lastBooked : Board) (ply : Nat),
      (let r := findDeviationAux reader board lastBooked ply ms
       (r.is_fully_booked = true →
          r.deviation_ply = ply + ms.length ∧ r.played_move = none ∧
            r.book_moves = []) ∧
       (r.is_fully_booked = false →
          r.deviation_ply < ply + ms.length ∧ r.played_move.isSome = true))
  | [], board, lastBooked, ply => by
      simp [findDeviationAux]
  | move :: rest, board, lastBooked, ply => by
      simp only [findDeviationAux]
      by_cases hm : move ∈ reader board
      · simp only [if_pos hm]
        have ih := findDeviationAux_spec reader rest (board.push move) board
          (ply + 1)
        constructor
        · intro hb
          obtain ⟨h1, h2, h3⟩ := ih.1 hb
          refine ⟨?_, h2, h3⟩
          simp only [List.length_cons]
          omega
        · intro hb
          obtain ⟨h1, h2⟩ := ih.2 hb
          refine ⟨?_, h2⟩
          simp only [List.length_cons]
          omega
      · simp only [if_neg hm]
        constructor
        · intro hb
          simp at hb
        · intro _
          constructor
          · simp only [List.length_cons]
            omega
          · simp

/-- **C3.** For every non-empty move list, the `DeviationResult` returned by
`find_deviation` satisfies: if `is_fully_booked` is true then `deviation_ply`
equals the length of the move list, `played_move` is absent and the book-move
set is empty; if `is_fully_booked` is false then `deviation_ply` is strictly
less than the length of the move list and `played_move` is present. -/
theorem find_deviation_invariant (reader : Board → List Move)
    (moves : List Move) (hne : moves ≠ []) :
    ∃ dr, find_deviation reader moves = some dr ∧
      (dr.is_fully_booked = true →
        dr.deviation_ply = moves.length ∧ dr.played_move = none ∧
          dr.book_moves = []) ∧
      (dr.is_fully_booked = false →
        dr.deviation_ply < moves.length ∧ dr.played_move.isSome = true) := by
  refine ⟨findDeviationAux reader Board.start Board.start 0 moves, ?_, ?_, ?_⟩
  · simp [find_deviation, hne]
  · intro hb
    have h := (findDeviationAux_spec reader moves Board.start Board.start 0).1 hb
    simpa using h
  · intro hb
    have h := (findDeviationAux_spec reader moves Board.start Board.start 0).2 hb
    simpa using h

/-- Witness for C3: a concrete book endorsing only `e2e4` at the start and the
game `e2e4 c7c5`; the deviation result satisfies the invariant. -/
theorem find_deviation_invariant_witness :
    ∃ dr, find_deviation
        (fun b => if b = Board.start then ["e2e4"] else [])
        ["e2e4", "c7c5"] = some dr ∧
      (dr.is_fully_booked = true →
        dr.deviation_ply = 2 ∧ dr.played_move = none ∧ dr.book_moves = []) ∧
      (dr.is_fully_booked = false →
        dr.deviation_ply < 2 ∧ dr.played_move.isSome = true) :=
  find_deviation_invariant (fun b => if b = Board.start then ["e2e4"] else [])
    ["e2e4", "c7c5"] (by decide)

/-- **C8.** For every non-empty move list whose first move is not in the
book's endorsed set at the initial position, `find_deviation` returns
`deviation_ply = 0` and `board_at_deviation` equal to the standard starting
position. -/
theorem find_deviation_first_move (reader : Board → List Move) (m : Move)
    (rest : List Move) (h : m ∉ reader Board.start) :
    (find_deviation reader (m :: rest)).map
        (fun dr => (dr.deviation_ply, dr.board_at_deviation)) =
      some (0, Board.start) := by
  simp only [find_deviation, findDeviationAux, if_neg h,
    reduceCtorEq, if_false, Option.map_some]
  simp [if_neg h]

/-- Witness for C8: an empty book at the start, first move `d2d4`. -/
theorem find_deviation_first_move_witness :
    (find_deviation (fun _ => []) ["d2d4", "d7d5", "c2c4", "e7e6"]).map
        (fun dr => (dr.deviation_ply, dr.board_at_deviation)) =
      some (0, Board.start) :=
  find_deviation_first_move (fun _ => []) "d2d4" ["d7d5", "c2c4", "e7e6"]
    (by decide)

/-! ## stockfish_evaluator.py -/

/-- `MATE_SCORE_CP` (stockfish_evaluator.py, line 10). -/
def MATE_SCORE_CP : Int := 10000

/-- `EvalResult` (stockfish_evaluator.py, lines 13–19). -/
structure EvalResult where
  score_cp : Int
  score_mate : Option Int
  depth : Nat
  best_move : Option Move
deriving DecidableEq, Repr

/-- `EvalResult.score_for_color(color)` (lines 21–28): the white-perspective
score, negated when the requested color is not `"white"`. -/
def EvalResult.score_for_color (r : EvalResult) (color : String) : Int :=
  let sign : Int := if color = "white" then 1 else -1
  r.score_cp * sign

/-- The engine's white-perspective score in its `analyse` reply:
`info["score"].white()` is either a forced-mate count or a centipawn value. -/
inductive EngineScore where
  | mate (m : Int)
  | cp (v : Int)
deriving DecidableEq, Repr

/-- The fields of the engine's `analyse` reply consumed by `evaluate`:
the white-perspective score, the principal variation (possibly empty when the
`pv` key is missing), and the reported depth (absent when the `depth` key is
missing). -/
structure EngineInfo where
  score : EngineScore
  pv : List Move
  depthInfo : Option Nat
deriving DecidableEq, Repr

/-- `StockfishEvaluator.evaluate` (stockfish_evaluator.py, lines 49–74),
as a function of the engine's reply `info`; `configDepth` is the evaluator's
configured depth (`self.depth`), used when the reply omits a depth.
The engine-process plumbing (`_engine is None` guard, UCI transport)
is outside this pure score-shaping logic. -/
def evaluate (configDepth : Nat) (info : EngineInfo) : EvalResult :=
  match info.score with
  | .mate mate_in =>
      { score_cp := if mate_in > 0 then MATE_SCORE_CP else -MATE_SCORE_CP
        score_mate := some mate_in
        depth := info.depthInfo.getD configDepth
        best_move := info.pv.head? }
  | .cp v =>
      { score_cp := v
        score_mate := none
        depth := info.depthInfo.getD configDepth
        best_move := info.pv.head? }

/-- **C6.** For every engine reply: if it reports a forced mate with signed
count `m`, the result carries centipawn score `+10000` when `m` is positive
and `-10000` when `m` is negative, with the mate-count field holding `m`;
otherwise the mate-count field is absent and the centipawn score is the
engine's raw white-perspective value. -/
theorem evaluate_mate_clamp (configDepth : Nat) (info : EngineInfo) :
    (∀ m, info.score = .mate m →
      (evaluate configDepth info).score_mate = some m ∧
      (0 < m → (evaluate configDepth info).score_cp = MATE_SCORE_CP) ∧
      (m < 0 → (evaluate configDepth info).score_cp = -MATE_SCORE_CP)) ∧
    (∀ v, info.score = .cp v →
      (evaluate configDepth info).score_mate = none ∧
      (evaluate configDepth info).score_cp = v) := by
  constructor
  · intro m hm
    refine ⟨?_, ?_, ?_⟩
    · simp [evaluate, hm]
    · intro hpos
      simp [evaluate, hm, hpos]
    · intro hneg
      have : ¬ m > 0 := by omega
      simp [evaluate, hm, this]
  · intro v hv
    constructor <;> simp [evaluate, hv]

/-- Witness for C6: a mate-for-white reply, a mate-for-black reply and a
plain centipawn reply, evaluated concretely. -/
theorem evaluate_mate_clamp_witness :
    (evaluate 18 ⟨.mate 3, ["e7e8q"], some 18⟩).score_mate = some 3 ∧
    (evaluate 18 ⟨.mate 3, ["e7e8q"], some 18⟩).score_cp = MATE_SCORE_CP ∧
    (evaluate 18 ⟨.mate (-2), [], none⟩).score_cp = -MATE_SCORE_CP ∧
    (evaluate 18 ⟨.cp 55, ["g1f3"], some 17⟩).score_mate = none ∧
    (evaluate 18 ⟨.cp 55, ["g1f3"], some 17⟩).score_cp = 55 := by
  refine ⟨((evaluate_mate_clamp 18 ⟨.mate 3, ["e7e8q"], some 18⟩).1 3 rfl).1,
    ((evaluate_mate_clamp 18 ⟨.mate 3, ["e7e8q"], some 18⟩).1 3 rfl).2.1
      (by decide),
    ((evaluate_mate_clamp 18 ⟨.mate (-2), [], none⟩).1 (-2) rfl).2.2
      (by decide),
    ((evaluate_mate_clamp 18 ⟨.cp 55, ["g1f3"], some 17⟩).2 55 rfl).1,
    ((evaluate_mate_clamp 18 ⟨.cp 55, ["g1f3"], some 17⟩).2 55 rfl).2⟩

/-- **C9.** For every `EvalResult` holding white-perspective score `v`,
`score_for_color "white"` returns `v` and `score_for_color "black"` returns
`-v`; in particular both are `0` when `v = 0`. -/
theorem score_for_color_sign (r : EvalResult) :
    r.score_for_color "white" = r.score_cp ∧
    r.score_for_color "black" = -r.score_cp ∧
    (r.score_cp = 0 →
      r.score_for_color "white" = 0 ∧ r.score_for_color "black" = 0) := by
  refine ⟨?_, ?_, ?_⟩
  · simp [EvalResult.score_for_color]
  · simp [EvalResult.score_for_color]
  · intro h0
    simp [EvalResult.score_for_color, h0]

/-- Witness for C9: concrete results with score 42 and score 0. -/
theorem score_for_color_sign_witness :
    (EvalResult.score_for_color ⟨42, none, 18, none⟩ "white" = 42 ∧
     EvalResult.score_for_color ⟨42, none, 18, none⟩ "black" = -42) ∧
    (EvalResult.score_for_color ⟨0, none, 18, none⟩ "white" = 0 ∧
     EvalResult.score_for_color ⟨0, none, 18, none⟩ "black" = 0) :=
  ⟨⟨(score_for_color_sign ⟨42, none, 18, none⟩).1,
    (score_for_color_sign ⟨42, none, 18, none⟩).2.1⟩,
   (score_for_color_sign ⟨0, none, 18, none⟩).2.2 rfl⟩

/-! ## repertoire_analyzer.py — data model -/

/-- `OpeningEvaluation` (repertoire_analyzer.py, lines 16–32).  These are
exactly the fields of the dataclass in that file; note it has **no**
`game_url`, `my_result` or `time_class` field. -/
structure OpeningEvaluation where
  eco_code : Option String
  eco_name : String
  my_color : String
  deviation_ply : Nat
  deviating_side : String
  eval_cp : Int
  is_fully_booked : Bool
  fen_at_deviation : String := ""
  best_move_uci : Option String := none
  played_move_uci : Option String := none
  book_moves_uci : List String := []
  eval_loss_cp : Int := 0
  game_moves_uci : List String := []
deriving DecidableEq, Repr

/-- `OpeningStats` (repertoire_analyzer.py, lines 35–59), stored fields. -/
structure OpeningStats where
  eco_code : Option String
  eco_name : String
  color : String
  times_played : Nat := 0
  total_eval : Int := 0
  min_eval : Int := 0
  max_eval : Int := 0
  total_deviation_ply : Nat := 0
  player_deviated_count : Nat := 0
  evaluations : List Int := []
deriving DecidableEq, Repr

/-- Python's `round` to an integer: nearest integer, ties to the even
integer (banker's rounding).  `Int.fdiv q.num q.den` is the floor of `q`.
The source computes on binary floats; the tie rule is the documented
round-half-even, modelled here over exact rationals. -/
def pyRoundHalfEven (q : ℚ) : Int :=
  let f : Int := Int.fdiv q.num (q.den : Int)
  let r : ℚ := q - (f : ℚ)
  if r < 1/2 then f
  else if 1/2 < r then f + 1
  else if f % 2 = 0 then f else f + 1

/-- Python's `round(x, 1)`: one decimal place, ties to even. -/
def pyRound1 (q : ℚ) : ℚ := (pyRoundHalfEven (q * 10) : ℚ) / 10

theorem pyRoundHalfEven_intCast (n : ℤ) : pyRoundHalfEven (n : ℚ) = n := by
  unfold pyRoundHalfEven
  rw [Rat.num_intCast, Rat.den_intCast]
  norm_num [Int.fdiv_one]

theorem pyRound1_intCast (n : ℤ) : pyRound1 ((n : ℚ)) = n := by
  unfold pyRound1
  rw [show ((n : ℚ) * 10) = (((10 * n : ℤ) : ℚ)) by push_cast; ring]
  rw [pyRoundHalfEven_intCast]
  push_cast
  field_simp

/-- `OpeningStats.avg_eval` (lines 49–53): `0.0` when nothing was played,
else the rounded mean score. -/
def OpeningStats.avg_eval (s : OpeningStats) : ℚ :=
  if s.times_played = 0 then 0
  else pyRound1 ((s.total_eval : ℚ) / (s.times_played : ℚ))

/-- `OpeningStats.avg_deviation_ply` (lines 55–59). -/
def OpeningStats.avg_deviation_ply (s : OpeningStats) : ℚ :=
  if s.times_played = 0 then 0
  else pyRound1 ((s.total_deviation_ply : ℚ) / (s.times_played : ℚ))

/-! ## repertoire_analyzer.py — aggregation (`_aggregate`, lines 143–170) -/

/-- The stats dict, keyed by the string `"{eco_code or 'Unknown'}_{color}"`. -/
def StatsMap := String → Option OpeningStats

/-- A fresh, empty stats dict. -/
def emptyStats : StatsMap := fun _ => none

/-- The aggregation key (line 146): `f"{evaluation.eco_code or 'Unknown'}_
{evaluation.my_color}"` — a missing **or empty** eco code (both falsy in
Python) becomes the `"Unknown"` sentinel. -/
def evalKey (ev : OpeningEvaluation) : String :=
  (match ev.eco_code with
   | none => "Unknown"
   | some s => if s = "" then "Unknown" else s) ++ "_" ++ ev.my_color

/-- The fresh entry inserted on first occurrence of a key (lines 148–159):
counters zero, min/max seeded to this evaluation's score. -/
def initStats (ev : OpeningEvaluation) : OpeningStats :=
  { eco_code := ev.eco_code
    eco_name := ev.eco_name
    color := ev.my_color
    times_played := 0
    total_eval := 0
    min_eval := ev.eval_cp
    max_eval := ev.eval_cp
    total_deviation_ply := 0
    player_deviated_count := 0 }

/-- The in-place mutation of an entry (lines 161–170): bump the play count,
running sum, min/max, deviation-ply sum, score list, and the player-deviated
counter when the deviating side is the player's own color. -/
def updateEntry (e : OpeningStats) (ev : OpeningEvaluation) : OpeningStats :=
  { e with
    times_played := e.times_played + 1
    total_eval := e.total_eval + ev.eval_cp
    min_eval := min e.min_eval ev.eval_cp
    max_eval := max e.max_eval ev.eval_cp
    total_deviation_ply := e.total_deviation_ply + ev.deviation_ply
    evaluations := e.evaluations ++ [ev.eval_cp]
    player_deviated_count :=
      e.player_deviated_count +
        (if ev.deviating_side = ev.my_color then 1 else 0) }

/-- `RepertoireAnalyzer._aggregate(stats, evaluation)`: insert-if-absent then
update, touching only the evaluation's key. -/
def aggregate (stats : StatsMap) (ev : OpeningEvaluation) : StatsMap :=
  fun k =>
    if k = evalKey ev then
      some (updateEntry ((stats (evalKey ev)).getD (initStats ev)) ev)
    else stats k

/-- The action of one `_aggregate` call on the entry at the evaluation's own
key (insert-if-absent, then update). -/
def foldKey (e : Option OpeningStats) (ev : OpeningEvaluation) :
    Option OpeningStats :=
  some (updateEntry (e.getD (initStats ev)) ev)

theorem foldl_aggregate_apply (evs : List OpeningEvaluation) :
    ∀ (s : StatsMap) (k : String),
      (evs.foldl aggregate s) k =
        (evs.filter (fun e => evalKey e = k)).foldl foldKey (s k) := by
  induction evs with
  | nil => intro s k; simp
  | cons ev rest ih =>
    intro s k
    simp only [List.foldl_cons, List.filter_cons]
    by_cases hk : evalKey ev = k
    · rw [if_pos (by simpa using hk)]
      simp only [List.foldl_cons]
      rw [ih]
      have hstep : (aggregate s ev) k = foldKey (s k) ev := by
        subst hk
        simp [aggregate, foldKey]
      rw [hstep]
    · rw [if_neg (by simpa using hk)]
      rw [ih]
      have hstep : (aggregate s ev) k = s k := by
        unfold aggregate
        rw [if_neg (fun h : k = evalKey ev => hk h.symm)]
      rw [hstep]

/-- The numeric fields of a stats entry: play count, eval sum, min, max,
deviation-ply sum, player-deviated count. -/
def numOf (s : OpeningStats) : Nat × Int × Int × Int × Nat × Nat :=
  (s.times_played, s.total_eval, s.min_eval, s.max_eval,
   s.total_deviation_ply, s.player_deviated_count)

theorem numOf_update {s₁ s₂ : OpeningStats} (h : numOf s₁ = numOf s₂)
    (ev : OpeningEvaluation) :
    numOf (updateEntry s₁ ev) = numOf (updateEntry s₂ ev) := by
  simp only [numOf, Prod.mk.injEq] at h
  obtain ⟨h1, h2, h3, h4, h5, h6⟩ := h
  simp only [numOf, updateEntry, Prod.mk.injEq, h1, h2, h3, h4, h5, h6]

theorem foldKey_num_congr {e₁ e₂ : Option OpeningStats}
    (h : e₁.map numOf = e₂.map numOf) (ev : OpeningEvaluation) :
    (foldKey e₁ ev).map numOf = (foldKey e₂ ev).map numOf := by
  cases e₁ with
  | none =>
    cases e₂ with
    | none => rfl
    | some s₂ => exact Option.noConfusion h
  | some s₁ =>
    cases e₂ with
    | none => exact Option.noConfusion h
    | some s₂ =>
      have h' : numOf s₁ = numOf s₂ := Option.some.inj h
      simp only [foldKey, Option.getD_some, Option.map_some', Option.some.injEq]
      exact numOf_update h' ev

theorem foldl_foldKey_num_congr (l : List OpeningEvaluation) :
    ∀ {e₁ e₂ : Option OpeningStats}, e₁.map numOf = e₂.map numOf →
      (l.foldl foldKey e₁).map numOf = (l.foldl foldKey e₂).map numOf := by
  induction l with
  | nil => intro e₁ e₂ h; simpa using h
  | cons ev rest ih =>
    intro e₁ e₂ h
    simp only [List.foldl_cons]
    exact ih (foldKey_num_congr h ev)

/-- Folding two evaluations into the same entry in either order yields the
same numeric fields (the non-numeric `evaluations` list and the seeded
`eco_name` may differ). -/
theorem foldKey_swap_num (e : Option OpeningStats) (x y : OpeningEvaluation) :
    (foldKey (foldKey e y) x).map numOf =
      (foldKey (foldKey e x) y).map numOf := by
  have hmax : ∀ a b c : Int, max (max a b) c = max (max a c) b := by
    intro a b c
    rw [max_assoc, max_comm b c, ← max_assoc]
  cases e with
  | none =>
    simp only [foldKey, Option.getD_none, Option.getD_some, Option.map_some',
      Option.some.injEq, numOf, updateEntry, initStats, Prod.mk.injEq]
    refine ⟨trivial, add_right_comm _ _ _, ?_, ?_, Nat.add_right_comm _ _ _,
      Nat.add_right_comm _ _ _⟩
    · rw [min_self, min_self]
      exact min_comm _ _
    · rw [max_self, max_self]
      exact max_comm _ _
  | some s =>
    simp only [foldKey, Option.getD_some, Option.map_some',
      Option.some.injEq, numOf, updateEntry, Prod.mk.injEq]
    exact ⟨trivial, add_right_comm _ _ _, min_right_comm _ _ _, hmax _ _ _,
      Nat.add_right_comm _ _ _, Nat.add_right_comm _ _ _⟩

theorem foldl_foldKey_num_perm {l₁ l₂ : List OpeningEvaluation}
    (h : l₁.Perm l₂) :
    ∀ e, (l₁.foldl foldKey e).map numOf =
      (l₂.foldl foldKey e).map numOf := by
  induction h with
  | nil => intro e; rfl
  | cons x _ ih =>
    intro e
    simpa only [List.foldl_cons] using ih (foldKey e x)
  | swap x y t =>
    intro e
    simp only [List.foldl_cons]
    exact foldl_foldKey_num_congr t (foldKey_swap_num e x y)
  | trans _ _ ih₁ ih₂ =>
    intro e
    exact (ih₁ e).trans (ih₂ e)

/-- The derived averages are functions of the numeric fields alone. -/
theorem avg_congr {o₁ o₂ : Option OpeningStats}
    (h : o₁.map numOf = o₂.map numOf) :
    o₁.map OpeningStats.avg_eval = o₂.map OpeningStats.avg_eval ∧
    o₁.map OpeningStats.avg_deviation_ply =
      o₂.map OpeningStats.avg_deviation_ply := by
  cases o₁ with
  | none =>
    cases o₂ with
    | none => exact ⟨rfl, rfl⟩
    | some s₂ => exact Option.noConfusion h
  | some s₁ =>
    cases o₂ with
    | none => exact Option.noConfusion h
    | some s₂ =>
      simp only [Option.map_some', Option.some.injEq, numOf,
        Prod.mk.injEq] at h
      obtain ⟨h1, h2, _, _, h5, _⟩ := h
      constructor
      · simp only [Option.map_some', Option.some.injEq,
          OpeningStats.avg_eval, h1, h2]
      · simp only [Option.map_some', Option.some.injEq,
          OpeningStats.avg_deviation_ply, h1, h5]

/-- **C7.** Folding the same multiset of evaluations into a fresh empty stats
map in either order yields, at every key, entries with identical
`times_played`, `total_eval`, `min_eval`, `max_eval`, `total_deviation_ply`
and `player_deviated_count`, and identical derived `avg_eval` and
`avg_deviation_ply`. -/
theorem aggregate_perm_invariant (l₁ l₂ : List OpeningEvaluation)
    (h : l₁.Perm l₂) (k : String) :
    ((l₁.foldl aggregate emptyStats) k).map numOf =
      ((l₂.foldl aggregate emptyStats) k).map numOf ∧
    ((l₁.foldl aggregate emptyStats) k).map OpeningStats.avg_eval =
      ((l₂.foldl aggregate emptyStats) k).map OpeningStats.avg_eval ∧
    ((l₁.foldl aggregate emptyStats) k).map OpeningStats.avg_deviation_ply =
      ((l₂.foldl aggregate emptyStats) k).map
        OpeningStats.avg_deviation_ply := by
  have hnum : ((l₁.foldl aggregate emptyStats) k).map numOf =
      ((l₂.foldl aggregate emptyStats) k).map numOf := by
    rw [foldl_aggregate_apply, foldl_aggregate_apply]
    exact foldl_foldKey_num_perm (h.filter (fun e => evalKey e = k))
      (emptyStats k)
  exact ⟨hnum, (avg_congr hnum).1, (avg_congr hnum).2⟩

/-- A sample evaluation: B90 as white, score 20. -/
def sampleEvalA : OpeningEvaluation :=
  { eco_code := some "B90", eco_name := "Sicilian", my_color := "white"
    deviation_ply := 6, deviating_side := "black", eval_cp := 20
    is_fully_booked := false }

/-- A sample evaluation: B90 as white, score 40. -/
def sampleEvalB : OpeningEvaluation :=
  { eco_code := some "B90", eco_name := "Sicilian Najdorf"
    my_color := "white", deviation_ply := 8, deviating_side := "white"
    eval_cp := 40, is_fully_booked := false }

/-- Witness for C7: folding `[A, B]` versus `[B, A]`. -/
theorem aggregate_perm_invariant_witness :
    (([sampleEvalA, sampleEvalB].foldl aggregate emptyStats)
        "B90_white").map numOf =
      (([sampleEvalB, sampleEvalA].foldl aggregate emptyStats)
        "B90_white").map numOf ∧
    (([sampleEvalA, sampleEvalB].foldl aggregate emptyStats)
        "B90_white").map OpeningStats.avg_eval =
      (([sampleEvalB, sampleEvalA].foldl aggregate emptyStats)
        "B90_white").map OpeningStats.avg_eval :=
  ⟨(aggregate_perm_invariant [sampleEvalA, sampleEvalB]
      [sampleEvalB, sampleEvalA]
      (List.Perm.swap sampleEvalB sampleEvalA []) "B90_white").1,
   (aggregate_perm_invariant [sampleEvalA, sampleEvalB]
      [sampleEvalB, sampleEvalA]
      (List.Perm.swap sampleEvalB sampleEvalA []) "B90_white").2.1⟩

/-- Minimum of a score list, seeded at its head (the aggregation seeds
min/max with the first score of a key and folds `min` over the rest). -/
def listMin : List Int → Int
  | [] => 0
  | x :: xs => xs.foldl min x

/-- Maximum of a score list, seeded at its head. -/
def listMax : List Int → Int
  | [] => 0
  | x :: xs => xs.foldl max x

theorem listMin_append_singleton (l : List Int) (hl : l ≠ []) (c : Int) :
    listMin (l ++ [c]) = min (listMin l) c := by
  cases l with
  | nil => exact absurd rfl hl
  | cons x xs =>
    simp only [List.cons_append, listMin, List.foldl_append, List.foldl_cons,
      List.foldl_nil]

theorem listMax_append_singleton (l : List Int) (hl : l ≠ []) (c : Int) :
    listMax (l ++ [c]) = max (listMax l) c := by
  cases l with
  | nil => exact absurd rfl hl
  | cons x xs =>
    simp only [List.cons_append, listMax, List.foldl_append, List.foldl_cons,
      List.foldl_nil]

/-- The representation invariant tying an entry's running numeric fields to
its recorded score list. -/
def GoodEntry (s : OpeningStats) : Prop :=
  s.times_played = s.evaluations.length ∧
  s.total_eval = s.evaluations.sum ∧
  s.evaluations ≠ [] ∧
  s.min_eval = listMin s.evaluations ∧
  s.max_eval = listMax s.evaluations

theorem goodEntry_update_init (ev : OpeningEvaluation) :
    GoodEntry (updateEntry (initStats ev) ev) := by
  refine ⟨?_, ?_, ?_, ?_, ?_⟩ <;>
    simp [GoodEntry, updateEntry, initStats, listMin, listMax]

theorem goodEntry_update {s : OpeningStats} (hs : GoodEntry s)
    (ev : OpeningEvaluation) : GoodEntry (updateEntry s ev) := by
  obtain ⟨h1, h2, h3, h4, h5⟩ := hs
  refine ⟨?_, ?_, ?_, ?_, ?_⟩
  · simp [updateEntry, h1]
  · simp [updateEntry, h2]
  · simp [updateEntry]
  · simp only [updateEntry]
    rw [listMin_append_singleton s.evaluations h3, h4]
  · simp only [updateEntry]
    rw [listMax_append_singleton s.evaluations h3, h5]

theorem foldl_foldKey_good (l : List OpeningEvaluation) :
    ∀ (o : Option OpeningStats), (∀ t, o = some t → GoodEntry t) →
      ∀ s, l.foldl foldKey o = some s → GoodEntry s := by
  induction l with
  | nil =>
    intro o ho s hs
    exact ho s hs
  | cons ev rest ih =>
    intro o ho s hs
    simp only [List.foldl_cons] at hs
    refine ih (foldKey o ev) ?_ s hs
    intro t ht
    cases o with
    | none =>
      simp only [foldKey, Option.getD_none, Option.some.injEq] at ht
      rw [← ht]
      exact goodEntry_update_init ev
    | some u =>
      simp only [foldKey, Option.getD_some, Option.some.injEq] at ht
      rw [← ht]
      exact goodEntry_update (ho u rfl) ev

/-- **C10.** After any sequence of aggregation folds into an initially empty
stats map, every entry satisfies `times_played = evaluations.length`,
`total_eval = evaluations.sum`, a non-empty score list with
`min_eval`/`max_eval` its minimum/maximum; and the derived accessors
`avg_eval` and `avg_deviation_ply` return `0.0` (rather than failing) whenever
`times_played = 0`. -/
theorem aggregate_entry_invariant :
    (∀ (l : List OpeningEvaluation) (k : String) (s : OpeningStats),
        (l.foldl aggregate emptyStats) k = some s →
        s.times_played = s.evaluations.length ∧
        s.total_eval = s.evaluations.sum ∧
        s.evaluations ≠ [] ∧
        s.min_eval = listMin s.evaluations ∧
        s.max_eval = listMax s.evaluations) ∧
    (∀ t : OpeningStats, t.times_played = 0 →
        t.avg_eval = 0 ∧ t.avg_deviation_ply = 0) := by
  constructor
  · intro l k s h
    rw [foldl_aggregate_apply] at h
    exact foldl_foldKey_good _ (emptyStats k)
      (fun t ht => Option.noConfusion ht) s h
  · intro t ht
    constructor
    · simp [OpeningStats.avg_eval, ht]
    · simp [OpeningStats.avg_deviation_ply, ht]

/-- Witness for C10: the entry produced by folding one concrete evaluation,
and a fresh zero entry for the average accessors. -/
theorem aggregate_entry_invariant_witness :
    ((updateEntry (initStats sampleEvalA) sampleEvalA).times_played =
        (updateEntry (initStats sampleEvalA) sampleEvalA).evaluations.length ∧
      (updateEntry (initStats sampleEvalA) sampleEvalA).total_eval =
        (updateEntry (initStats sampleEvalA) sampleEvalA).evaluations.sum ∧
      (updateEntry (initStats sampleEvalA) sampleEvalA).evaluations ≠ [] ∧
      (updateEntry (initStats sampleEvalA) sampleEvalA).min_eval =
        listMin (updateEntry (initStats sampleEvalA) sampleEvalA).evaluations ∧
      (updateEntry (initStats sampleEvalA) sampleEvalA).max_eval =
        listMax (updateEntry (initStats sampleEvalA) sampleEvalA).evaluations) ∧
    ((initStats sampleEvalA).avg_eval = 0 ∧
      (initStats sampleEvalA).avg_deviation_ply = 0) :=
  ⟨aggregate_entry_invariant.1 [sampleEvalA] "B90_white"
      (updateEntry (initStats sampleEvalA) sampleEvalA) rfl,
   aggregate_entry_invariant.2 (initStats sampleEvalA) rfl⟩

/-! ## repertoire_analyzer.py — centipawn loss
(`_compute_eval_loss`, lines 72–83) -/

/-- `RepertoireAnalyzer._compute_eval_loss(deviation, eval_before_cp,
evaluator, color)`: `0` for fully booked games or when no move was played
(the source's single guard `is_fully_booked or played_move is None`),
otherwise `eval_before − eval_after` from the player's perspective, where
`eval_after` is the evaluator's score of the position after pushing the
played move.  The second component counts the evaluator calls made, so that
"no second evaluation call" is part of the returned value. -/
def compute_eval_loss (deviation : DeviationResult) (eval_before_cp : Int)
    (evaluator : Board → EvalResult) (color : String) : Int × Nat :=
  match deviation.played_move with
  | none => (0, 0)
  | some m =>
      if deviation.is_fully_booked then (0, 0)
      else
        let board_after := deviation.board_at_deviation.push m
        let eval_after := evaluator board_after
        (eval_before_cp - eval_after.score_for_color color, 1)

/-- **C4.** The computed centipawn loss is `0` with no evaluator call
whenever `is_fully_booked` is true or `played_move` is absent; otherwise it
equals the pre-deviation evaluation minus the evaluation after the played
move, both from the analyzed player's perspective, using exactly one
evaluator call. -/
theorem compute_eval_loss_spec (deviation : DeviationResult)
    (eval_before_cp : Int) (evaluator : Board → EvalResult) (color : String) :
    ((deviation.is_fully_booked = true ∨ deviation.played_move = none) →
      compute_eval_loss deviation eval_before_cp evaluator color = (0, 0)) ∧
    (∀ m, deviation.played_move = some m → deviation.is_fully_booked = false →
      compute_eval_loss deviation eval_before_cp evaluator color =
        (eval_before_cp -
          (evaluator (deviation.board_at_deviation.push m)).score_for_color
            color, 1)) := by
  constructor
  · intro h
    cases hpm : deviation.played_move with
    | none => simp [compute_eval_loss, hpm]
    | some m =>
      cases h with
      | inl hb => simp [compute_eval_loss, hpm, hb]
      | inr hn => exact absurd (hpm ▸ hn) (by simp)
  · intro m hm hb
    simp [compute_eval_loss, hm, hb]

/-- A deterministic stub evaluator returning 7 centipawns everywhere. -/
def stubEvaluator : Board → EvalResult := fun _ => ⟨7, none, 18, none⟩

/-- A fully-booked deviation result (no played move). -/
def sampleDevBooked : DeviationResult :=
  { deviation_ply := 8, deviating_side := "none"
    board_at_deviation := Board.start, is_fully_booked := true }

/-- A deviation result with a played move at the starting position. -/
def sampleDevPlayed : DeviationResult :=
  { deviation_ply := 0, deviating_side := "white"
    board_at_deviation := Board.start, is_fully_booked := false
    played_move := some "g1f3", book_moves := ["e2e4", "d2d4"] }

/-- Witness for C4: a fully-booked deviation yields `(0, 0)`; a real
deviation yields one evaluator call and `before − after`. -/
theorem compute_eval_loss_spec_witness :
    compute_eval_loss sampleDevBooked 50 stubEvaluator "white" = (0, 0) ∧
    compute_eval_loss sampleDevPlayed 50 stubEvaluator "white" =
      (50 - (stubEvaluator (sampleDevPlayed.board_at_deviation.push
        "g1f3")).score_for_color "white", 1) :=
  ⟨(compute_eval_loss_spec sampleDevBooked 50 stubEvaluator "white").1
      (Or.inl rfl),
   (compute_eval_loss_spec sampleDevPlayed 50 stubEvaluator "white").2
      "g1f3" rfl rfl⟩

/-! ## repertoire_analyzer.py — orchestration
(`analyze_repertoire`, `_preprocess_game`, `_analyze_sequential`,
`_analyze_parallel`, `_make_evaluation`, lines 125–308) -/

/-- A game record (`ChessGame`), restricted to the fields the analyzer
reads: the PGN text (`None` or a string, the empty string being falsy),
the analyzed player's color, the opening classification and the source URL. -/
structure Game where
  pgn : Option String
  my_color : String
  eco_code : Option String
  eco_name : Option String
  game_url : String
deriving DecidableEq, Repr

/-- `RepertoireAnalyzer.MIN_MOVES_FOR_ANALYSIS` (line 65). -/
def MIN_MOVES_FOR_ANALYSIS : Nat := 4

/-- A surviving `(game, deviation, moves)` triple from preprocessing. -/
abbrev PreparedGame := Game × DeviationResult × List Move

/-- `RepertoireAnalyzer._preprocess_game(game)` (lines 125–141):
skip when the PGN is falsy (`None` or empty), when parsing yields no moves
or fewer than the minimum, or when no deviation result is produced.
`parseMoves` is `PGNParser.parse_moves` (returns `None` or a move list). -/
def preprocess_game (parseMoves : String → Option (List Move))
    (reader : Board → List Move) (game : Game) : Option PreparedGame :=
  match game.pgn with
  | none => none
  | some p =>
    if p = "" then none
    else
      match parseMoves p with
      | none => none
      | some moves =>
        if moves = [] ∨ moves.length < MIN_MOVES_FOR_ANALYSIS then none
        else
          match find_deviation reader moves with
          | none => none
          | some deviation => some (game, deviation, moves)

/-- `game.eco_name or "Unknown Opening"` (Python falsiness: `None` and the
empty string both fall back). -/
def ecoNameOrDefault (n : Option String) : String :=
  match n with
  | none => "Unknown Opening"
  | some s => if s = "" then "Unknown Opening" else s

/-- `RepertoireAnalyzer._make_evaluation(game, deviation, eval_result,
eval_loss_cp, moves)` (lines 290–308); moves are already UCI strings in this
model, so `m.uci()` is the identity. -/
def make_evaluation (game : Game) (deviation : DeviationResult)
    (eval_result : EvalResult) (eval_loss_cp : Int) (moves : List Move) :
    OpeningEvaluation :=
  { eco_code := game.eco_code
    eco_name := ecoNameOrDefault game.eco_name
    my_color := game.my_color
    deviation_ply := deviation.deviation_ply
    deviating_side := deviation.deviating_side
    eval_cp := eval_result.score_for_color game.my_color
    is_fully_booked := deviation.is_fully_booked
    fen_at_deviation := deviation.board_at_deviation.fen
    best_move_uci := eval_result.best_move
    played_move_uci := deviation.played_move
    book_moves_uci := deviation.book_moves
    eval_loss_cp := eval_loss_cp
    game_moves_uci := moves }

/-- The per-game body shared by the sequential loop (lines 223–228) and the
parallel worker (lines 244–249): evaluate the deviation position, compute
the loss, build the evaluation.  Returns the `(game, evaluation)` pair and
the number of evaluator calls made (one, plus the loss computation's). -/
def analyze_one (evaluator : Board → EvalResult) (item : PreparedGame) :
    (Game × OpeningEvaluation) × Nat :=
  let game := item.1
  let deviation := item.2.1
  let moves := item.2.2
  let eval_result := evaluator deviation.board_at_deviation
  let eval_cp := eval_result.score_for_color game.my_color
  let lossResult := compute_eval_loss deviation eval_cp evaluator game.my_color
  ((game, make_evaluation game deviation eval_result lossResult.1 moves),
    1 + lossResult.2)

/-- The outcome of one `analyze_repertoire` run: the stats dict, the
`new_evaluations` list, plus the observable effects — the number of
evaluator calls made and the arguments of every `progress_callback`
invocation (the optional callback is modelled by recording its calls). -/
structure AnalyzeResult where
  stats : StatsMap
  new_evals : List (Game × OpeningEvaluation)
  eval_calls : Nat
  progress_calls : List (Nat × Nat)

/-- One iteration of `_analyze_sequential` (lines 216–232): report progress
`(i+1, total)`, analyze, fold into stats, append to the results. -/
def seqStep (evaluator : Board → EvalResult) (total : Nat)
    (acc : AnalyzeResult × Nat) (item : PreparedGame) : AnalyzeResult × Nat :=
  let res := acc.1
  let i := acc.2
  let a := analyze_one evaluator item
  (⟨aggregate res.stats a.1.2, res.new_evals ++ [a.1],
    res.eval_calls + a.2, res.progress_calls ++ [(i + 1, total)]⟩, i + 1)

/-- `RepertoireAnalyzer._analyze_sequential(prepared, total,
progress_callback, stats)`: iterate the triples in order. -/
def analyze_sequential (evaluator : Board → EvalResult)
    (prepared : List PreparedGame) (total : Nat) (stats₀ : StatsMap) :
    AnalyzeResult :=
  (prepared.foldl (seqStep evaluator total) (⟨stats₀, [], 0, []⟩, 0)).1

/-- One completed game of `_analyze_parallel` (lines 240–256): the
lock-protected critical section folds into the shared stats, appends to the
shared list, increments the completed counter and reports progress. -/
def parStep (evaluator : Board → EvalResult) (total : Nat)
    (acc : AnalyzeResult × Nat) (item : PreparedGame) : AnalyzeResult × Nat :=
  let res := acc.1
  let completed := acc.2
  let a := analyze_one evaluator item
  (⟨aggregate res.stats a.1.2, res.new_evals ++ [a.1],
    res.eval_calls + a.2, res.progress_calls ++ [(completed + 1, total)]⟩,
   completed + 1)

/-- `RepertoireAnalyzer._analyze_parallel` (lines 234–288), abbreviated by
its completion order: each worker owns one engine (the same deterministic
evaluator), computations outside the lock are pure, and the critical
sections execute atomically in some global completion order — an
interleaving of the round-robin chunks that preserves each chunk's relative
order.  Given that order, the shared state evolves exactly as this fold. -/
def analyze_parallel_order (evaluator : Board → EvalResult)
    (order : List PreparedGame) (total : Nat) (stats₀ : StatsMap) :
    AnalyzeResult :=
  (order.foldl (parStep evaluator total) (⟨stats₀, [], 0, []⟩, 0)).1

/-- The round-robin partitioning loop of `_analyze_parallel`
(lines 258–261): item `i` goes to bucket `i % workers`. -/
def roundRobinAux (n : Nat) :
    List PreparedGame → Nat → List (List PreparedGame) →
      List (List PreparedGame)
  | [], _, buckets => buckets
  | x :: rest, i, buckets =>
      roundRobinAux n rest (i + 1)
        (buckets.set (i % n) (buckets.getD (i % n) [] ++ [x]))

/-- `chunks = [[] for _ in range(workers)]` then the round-robin loop. -/
def roundRobin (n : Nat) (l : List PreparedGame) :
    List (List PreparedGame) :=
  roundRobinAux n l 0 (List.replicate n [])

/-- A global completion order of the parallel workers: repeatedly, some
chunk with work left completes its next item.  `Interleaving chunks order`
holds exactly for the orders a parallel execution can produce: each chunk's
relative order is preserved, chunks interleave arbitrarily. -/
inductive Interleaving :
    List (List PreparedGame) → List PreparedGame → Prop where
  | done (chunks : List (List PreparedGame)) :
      (∀ c ∈ chunks, c = []) → Interleaving chunks []
  | take (chunks : List (List PreparedGame)) (i : Nat) (x : PreparedGame)
      (cs : List PreparedGame) (out : List PreparedGame) :
      chunks[i]? = some (x :: cs) →
      Interleaving (chunks.set i cs) out →
      Interleaving chunks (x :: out)

/-- `analyze_repertoire(games, progress_callback, workers,
cached_evaluations)` (lines 172–214), `workers ≤ 1` branch: seed the stats
with the cached evaluations, preprocess, return early on an empty surviving
list (reporting `(0, 0)` once), else run the sequential pass. -/
def analyze_repertoire_seq (parseMoves : String → Option (List Move))
    (reader : Board → List Move) (evaluator : Board → EvalResult)
    (games : List Game) (cached : List OpeningEvaluation) : AnalyzeResult :=
  let stats := cached.foldl aggregate emptyStats
  let prepared := games.filterMap (preprocess_game parseMoves reader)
  let total := prepared.length
  if total = 0 then ⟨stats, [], 0, [(0, 0)]⟩
  else analyze_sequential evaluator prepared total stats

/-- `analyze_repertoire`, `workers > 1` branch, abbreviated by the parallel
completion order (see `analyze_parallel_order`); the seeding, preprocessing
and early return are shared with the sequential branch verbatim. -/
def analyze_repertoire_par (parseMoves : String → Option (List Move))
    (reader : Board → List Move) (evaluator : Board → EvalResult)
    (games : List Game) (cached : List OpeningEvaluation)
    (order : List PreparedGame) : AnalyzeResult :=
  let stats := cached.foldl aggregate emptyStats
  let prepared := games.filterMap (preprocess_game parseMoves reader)
  let total := prepared.length
  if total = 0 then ⟨stats, [], 0, [(0, 0)]⟩
  else analyze_parallel_order evaluator order total stats

theorem flatten_eq_nil_of_all_nil (chunks : List (List PreparedGame))
    (h : ∀ c ∈ chunks, c = []) : chunks.flatten = [] :=
  List.flatten_eq_nil_iff.mpr h

theorem flatten_set_perm (chunks : List (List PreparedGame)) :
    ∀ (i : Nat) (x : PreparedGame) (cs : List PreparedGame),
      chunks[i]? = some (x :: cs) →
      chunks.flatten.Perm (x :: (chunks.set i cs).flatten) := by
  induction chunks with
  | nil =>
    intro i x cs h
    simp at h
  | cons c rest ih =>
    intro i x cs h
    cases i with
    | zero =>
      rw [List.getElem?_cons_zero, Option.some.injEq] at h
      subst h
      rw [List.set_cons_zero _ _ _]
      simp only [List.flatten_cons, List.cons_append]
      exact List.Perm.refl _
    | succ j =>
      rw [List.getElem?_cons_succ] at h
      rw [List.set_cons_succ _ _ _ _]
      simp only [List.flatten_cons]
      exact ((ih j x cs h).append_left c).trans List.perm_middle

theorem interleaving_perm {chunks : List (List PreparedGame)}
    {order : List PreparedGame} (h : Interleaving chunks order) :
    order.Perm chunks.flatten := by
  induction h with
  | done chunks hall =>
    rw [flatten_eq_nil_of_all_nil chunks hall]
  | take chunks i x cs out hidx _ ih =>
    exact (ih.cons x).trans (flatten_set_perm chunks i x cs hidx).symm

theorem set_getD_append_perm (buckets : List (List PreparedGame)) :
    ∀ (k : Nat) (x : PreparedGame), k < buckets.length →
      ((buckets.set k (buckets.getD k [] ++ [x])).flatten).Perm
        (buckets.flatten ++ [x]) := by
  induction buckets with
  | nil =>
    intro k x hk
    simp at hk
  | cons b rest ih =>
    intro k x hk
    cases k with
    | zero =>
      rw [List.getD_cons_zero, List.set_cons_zero _ _ _]
      simp only [List.flatten_cons]
      rw [List.append_assoc, List.append_assoc]
      exact List.perm_append_comm.append_left b
    | succ j =>
      rw [List.getD_cons_succ, List.set_cons_succ _ _ _ _]
      simp only [List.flatten_cons]
      have hj : j < rest.length := by
        simpa using Nat.lt_of_succ_lt_succ hk
      have hperm := (ih j x hj).append_left b
      rw [← List.append_assoc] at hperm
      exact hperm

theorem roundRobinAux_flatten_perm (n : Nat) (hn : 0 < n) :
    ∀ (l : List PreparedGame) (i : Nat)
      (buckets : List (List PreparedGame)), buckets.length = n →
      (roundRobinAux n l i buckets).flatten.Perm (buckets.flatten ++ l) := by
  intro l
  induction l with
  | nil =>
    intro i buckets _
    simp [roundRobinAux]
  | cons x rest ih =>
    intro i buckets hb
    simp only [roundRobinAux]
    have hk : i % n < buckets.length := by
      rw [hb]
      exact Nat.mod_lt _ hn
    have h2 := ih (i + 1)
      (buckets.set (i % n) (buckets.getD (i % n) [] ++ [x]))
      (by rw [List.length_set]; exact hb)
    refine h2.trans ?_
    refine ((set_getD_append_perm buckets (i % n) x hk).append_right
      rest).trans ?_
    rw [List.append_assoc]
    exact List.Perm.refl _

theorem roundRobin_flatten_perm (n : Nat) (hn : 0 < n)
    (l : List PreparedGame) : (roundRobin n l).flatten.Perm l := by
  have hrep : (List.replicate n ([] : List PreparedGame)).flatten = [] := by
    induction n with
    | zero => rfl
    | succ m ihm => simp [List.replicate, ihm]
  have h := roundRobinAux_flatten_perm n hn l 0
    (List.replicate n []) (by simp)
  rw [roundRobin]
  simpa [hrep] using h

/-- The `(game, evaluation)` pair a deterministic evaluator produces for a
prepared triple — identical in the sequential loop and in every worker. -/
def pairOf (evaluator : Board → EvalResult) (item : PreparedGame) :
    Game × OpeningEvaluation :=
  (analyze_one evaluator item).1

theorem foldl_seqStep_spec (evaluator : Board → EvalResult) (total : Nat) :
    ∀ (l : List PreparedGame) (res : AnalyzeResult) (i : Nat),
      (l.foldl (seqStep evaluator total) (res, i)).1.stats =
        (l.map (fun it => (pairOf evaluator it).2)).foldl aggregate
          res.stats ∧
      (l.foldl (seqStep evaluator total) (res, i)).1.new_evals =
        res.new_evals ++ l.map (pairOf evaluator) := by
  intro l
  induction l with
  | nil =>
    intro res i
    simp
  | cons x rest ih =>
    intro res i
    simp only [List.foldl_cons, List.map_cons]
    constructor
    · rw [(ih _ _).1]
      rfl
    · rw [(ih _ _).2]
      simp [seqStep, pairOf, List.append_assoc]

theorem foldl_parStep_spec (evaluator : Board → EvalResult) (total : Nat) :
    ∀ (l : List PreparedGame) (res : AnalyzeResult) (i : Nat),
      (l.foldl (parStep evaluator total) (res, i)).1.stats =
        (l.map (fun it => (pairOf evaluator it).2)).foldl aggregate
          res.stats ∧
      (l.foldl (parStep evaluator total) (res, i)).1.new_evals =
        res.new_evals ++ l.map (pairOf evaluator) := by
  intro l
  induction l with
  | nil =>
    intro res i
    simp
  | cons x rest ih =>
    intro res i
    simp only [List.foldl_cons, List.map_cons]
    constructor
    · rw [(ih _ _).1]
      rfl
    · rw [(ih _ _).2]
      simp [parStep, pairOf, List.append_assoc]

theorem analyze_sequential_spec (evaluator : Board → EvalResult)
    (prepared : List PreparedGame) (total : Nat) (stats₀ : StatsMap) :
    (analyze_sequential evaluator prepared total stats₀).stats =
      (prepared.map (fun it => (pairOf evaluator it).2)).foldl aggregate
        stats₀ ∧
    (analyze_sequential evaluator prepared total stats₀).new_evals =
      prepared.map (pairOf evaluator) := by
  have h := foldl_seqStep_spec evaluator total prepared ⟨stats₀, [], 0, []⟩ 0
  exact ⟨h.1, by simpa using h.2⟩

theorem analyze_parallel_order_spec (evaluator : Board → EvalResult)
    (order : List PreparedGame) (total : Nat) (stats₀ : StatsMap) :
    (analyze_parallel_order evaluator order total stats₀).stats =
      (order.map (fun it => (pairOf evaluator it).2)).foldl aggregate
        stats₀ ∧
    (analyze_parallel_order evaluator order total stats₀).new_evals =
      order.map (pairOf evaluator) := by
  have h := foldl_parStep_spec evaluator total order ⟨stats₀, [], 0, []⟩ 0
  exact ⟨h.1, by simpa using h.2⟩

/-- **C2.** For the same games, detector, parser and deterministic evaluator,
the sequential run and any parallel run (any completion order the round-robin
partition across `workers > 1` engines admits) produce stats maps identical
in all numeric fields of every entry, and the parallel `new_evaluations`
list is a permutation of the sequential one — exactly one entry per
surviving preprocessed game. -/
theorem parallel_sequential_equiv (parseMoves : String → Option (List Move))
    (reader : Board → List Move) (evaluator : Board → EvalResult)
    (games : List Game) (cached : List OpeningEvaluation) (workers : Nat)
    (order : List PreparedGame) (hw : 1 < workers)
    (hsched : Interleaving
      (roundRobin workers
        (games.filterMap (preprocess_game parseMoves reader))) order) :
    (∀ k, ((analyze_repertoire_seq parseMoves reader evaluator games
              cached).stats k).map numOf =
          ((analyze_repertoire_par parseMoves reader evaluator games
              cached order).stats k).map numOf) ∧
    (analyze_repertoire_par parseMoves reader evaluator games cached
        order).new_evals.Perm
      (analyze_repertoire_seq parseMoves reader evaluator games
        cached).new_evals := by
  have hn : 0 < workers := by omega
  have horder : order.Perm
      (games.filterMap (preprocess_game parseMoves reader)) :=
    (interleaving_perm hsched).trans (roundRobin_flatten_perm workers hn _)
  by_cases hp : games.filterMap (preprocess_game parseMoves reader) = []
  · have hoe : order = [] := by
      rw [hp] at horder
      exact horder.eq_nil
    constructor
    · intro k
      simp [analyze_repertoire_seq, analyze_repertoire_par, hp]
    · simp [analyze_repertoire_seq, analyze_repertoire_par, hp, hoe]
  · have hlen : ¬ (games.filterMap
        (preprocess_game parseMoves reader)).length = 0 := by
      intro h0
      exact hp (List.length_eq_zero.mp h0)
    simp only [analyze_repertoire_seq, analyze_repertoire_par]
    rw [if_neg hlen, if_neg hlen]
    have hseq := analyze_sequential_spec evaluator
      (games.filterMap (preprocess_game parseMoves reader))
      (games.filterMap (preprocess_game parseMoves reader)).length
      (cached.foldl aggregate emptyStats)
    have hpar := analyze_parallel_order_spec evaluator order
      (games.filterMap (preprocess_game parseMoves reader)).length
      (cached.foldl aggregate emptyStats)
    constructor
    · intro k
      rw [hseq.1, hpar.1]
      generalize List.foldl aggregate emptyStats cached = s₀
      rw [foldl_aggregate_apply, foldl_aggregate_apply]
      exact foldl_foldKey_num_perm
        ((horder.symm.map (fun it => (pairOf evaluator it).2)).filter
          (fun e => evalKey e = k)) (s₀ k)
    · rw [hseq.2, hpar.2]
      exact horder.map (pairOf evaluator)

/-- A concrete game for the C2 witness. -/
def wGameA : Game :=
  { pgn := some "pgnA", my_color := "white", eco_code := none
    eco_name := some "Queens Gambit", game_url := "u1" }

/-- A second concrete game for the C2 witness. -/
def wGameB : Game :=
  { pgn := some "pgnB", my_color := "white", eco_code := none
    eco_name := some "Queens Gambit", game_url := "u2" }

/-- A stub parser for the C2 witness: every PGN yields the same four moves. -/
def wParse : String → Option (List Move) :=
  fun _ => some ["d2d4", "d7d5", "c2c4", "e7e6"]

/-- A stub book for the C2 witness: empty everywhere. -/
def wReader : Board → List Move := fun _ => []

/-- The deviation both witness games produce under `wReader`. -/
def wDev : DeviationResult :=
  { deviation_ply := 0, deviating_side := "white"
    board_at_deviation := Board.start, is_fully_booked := false
    played_move := some "d2d4", book_moves := [] }

/-- The prepared triple for `wGameA`. -/
def wItemA : PreparedGame := (wGameA, wDev, ["d2d4", "d7d5", "c2c4", "e7e6"])

/-- The prepared triple for `wGameB`. -/
def wItemB : PreparedGame := (wGameB, wDev, ["d2d4", "d7d5", "c2c4", "e7e6"])

/-- Witness for C2: two games round-robined over two workers, with the
second worker finishing first; the results list is a permutation of the
sequential one and the stats entry carries the same numbers. -/
theorem parallel_sequential_equiv_witness :
    (analyze_repertoire_par wParse wReader stubEvaluator [wGameA, wGameB]
        [] [wItemB, wItemA]).new_evals.Perm
      (analyze_repertoire_seq wParse wReader stubEvaluator [wGameA, wGameB]
        []).new_evals ∧
    ((analyze_repertoire_seq wParse wReader stubEvaluator [wGameA, wGameB]
        []).stats "Unknown_white").map numOf =
      ((analyze_repertoire_par wParse wReader stubEvaluator
        [wGameA, wGameB] [] [wItemB, wItemA]).stats "Unknown_white").map
        numOf :=
  have hsched : Interleaving
      (roundRobin 2
        ([wGameA, wGameB].filterMap (preprocess_game wParse wReader)))
      [wItemB, wItemA] :=
    Interleaving.take _ 1 wItemB [] [wItemA] (by rfl)
      (Interleaving.take _ 0 wItemA [] [] (by rfl)
        (Interleaving.done _ (by decide)))
  ⟨(parallel_sequential_equiv wParse wReader stubEvaluator [wGameA, wGameB]
      [] 2 [wItemB, wItemA] (by decide) hsched).2,
   (parallel_sequential_equiv wParse wReader stubEvaluator [wGameA, wGameB]
      [] 2 [wItemB, wItemA] (by decide) hsched).1 "Unknown_white"⟩

/-- **C5.** When no game survives preprocessing (in particular when the
games list is empty), `analyze_repertoire` returns the stats built solely
from the cached evaluations, an empty new-evaluations list, zero evaluator
calls, and a single `progress_callback(0, 0)` invocation — in both the
sequential and the parallel branch; concretely, with no games and two cached
B90-as-white evaluations scoring 20 and 40, the `"B90_white"` entry has
`times_played = 2` and `avg_eval = 30.0`. -/
theorem cached_only_run (parseMoves : String → Option (List Move))
    (reader : Board → List Move) (evaluator : Board → EvalResult)
    (games : List Game) (cached : List OpeningEvaluation)
    (h : ∀ g ∈ games, preprocess_game parseMoves reader g = none) :
    (analyze_repertoire_seq parseMoves reader evaluator games cached =
        ⟨cached.foldl aggregate emptyStats, [], 0, [(0, 0)]⟩ ∧
      ∀ order,
        analyze_repertoire_par parseMoves reader evaluator games cached
            order =
          ⟨cached.foldl aggregate emptyStats, [], 0, [(0, 0)]⟩) ∧
    ((analyze_repertoire_seq parseMoves reader evaluator ([] : List Game)
        [sampleEvalA, sampleEvalB]).stats "B90_white").map
      (fun s => (s.times_played, s.avg_eval)) = some (2, 30) := by
  have hpe : games.filterMap (preprocess_game parseMoves reader) = [] :=
    List.filterMap_eq_nil_iff.mpr h
  refine ⟨⟨?_, ?_⟩, ?_⟩
  · simp only [analyze_repertoire_seq, hpe]
    rfl
  · intro order
    simp only [analyze_repertoire_par, hpe]
    rfl
  · have hs : (analyze_repertoire_seq parseMoves reader evaluator
        ([] : List Game) [sampleEvalA, sampleEvalB]).stats "B90_white" =
        some (updateEntry (updateEntry (initStats sampleEvalA) sampleEvalA)
          sampleEvalB) := rfl
    rw [hs, Option.map_some']
    have ht : (updateEntry (updateEntry (initStats sampleEvalA) sampleEvalA)
        sampleEvalB).times_played = 2 := rfl
    have he : (updateEntry (updateEntry (initStats sampleEvalA) sampleEvalA)
        sampleEvalB).total_eval = 60 := rfl
    have havg : (updateEntry (updateEntry (initStats sampleEvalA)
        sampleEvalA) sampleEvalB).avg_eval = 30 := by
      unfold OpeningStats.avg_eval
      rw [ht, he]
      rw [if_neg (by norm_num)]
      rw [show ((((60 : ℤ) : ℚ)) / ((2 : ℕ) : ℚ)) = ((30 : ℤ) : ℚ) by
        push_cast
        norm_num]
      rw [pyRound1_intCast]
      norm_num
    rw [ht, havg]

/-- Witness for C5: empty games list (so the hypothesis holds vacuously)
with one cached evaluation, plus the concrete B90 average. -/
theorem cached_only_run_witness :
    (analyze_repertoire_seq wParse wReader stubEvaluator [] [sampleEvalA] =
        ⟨[sampleEvalA].foldl aggregate emptyStats, [], 0, [(0, 0)]⟩) ∧
    ((analyze_repertoire_seq wParse wReader stubEvaluator ([] : List Game)
        [sampleEvalA, sampleEvalB]).stats "B90_white").map
      (fun s => (s.times_played, s.avg_eval)) = some (2, 30) :=
  ⟨(cached_only_run wParse wReader stubEvaluator [] [sampleEvalA]
      (fun g hg => absurd hg (List.not_mem_nil g))).1.1,
   (cached_only_run wParse wReader stubEvaluator [] [sampleEvalA]
      (fun g hg => absurd hg (List.not_mem_nil g))).2⟩

/-! ## game_cache.py — evaluation rows (lines 90–190) -/

/-- Python's `str.split(",")` on the accumulated characters: split at every
comma; the empty string yields `[""]` (the source guards the empty string
before ever splitting). -/
def splitCommaChars : List Char → List Char → List String
  | [], acc => [String.mk acc.reverse]
  | c :: rest, acc =>
      if c = ',' then String.mk acc.reverse :: splitCommaChars rest []
      else splitCommaChars rest (c :: acc)

/-- Python's `str.split(",")`. -/
def splitComma (s : String) : List String := splitCommaChars s.data []

/-- One row of the `opening_evaluations` table, in column order
(game_cache.py, lines 29–41 and 46–55; `is_fully_booked` is stored as an
integer, the two move lists as comma-joined text). -/
structure EvalRow where
  game_url : String
  username : String
  depth : Nat
  eco_code : Option String
  eco_name : String
  my_color : String
  deviation_ply : Nat
  deviating_side : String
  eval_cp : Int
  is_fully_booked_int : Int
  fen_at_deviation : String
  best_move_uci : Option String
  played_move_uci : Option String
  book_moves_uci : String
  eval_loss_cp : Int
  game_moves_uci : String
deriving DecidableEq, Repr

/-- `GameCache._eval_to_row(game_url, username, depth, evaluation)`
(lines 152–166): the tuple bound to the INSERT, with
`",".join(l) if l else ""` for the two list fields. -/
def eval_to_row (game_url username : String) (depth : Nat)
    (evaluation : OpeningEvaluation) : EvalRow :=
  { game_url := game_url
    username := username.toLower
    depth := depth
    eco_code := evaluation.eco_code
    eco_name := evaluation.eco_name
    my_color := evaluation.my_color
    deviation_ply := evaluation.deviation_ply
    deviating_side := evaluation.deviating_side
    eval_cp := evaluation.eval_cp
    is_fully_booked_int := if evaluation.is_fully_booked then 1 else 0
    fen_at_deviation := evaluation.fen_at_deviation
    best_move_uci := evaluation.best_move_uci
    played_move_uci := evaluation.played_move_uci
    book_moves_uci :=
      if evaluation.book_moves_uci ≠ [] then
        String.intercalate "," evaluation.book_moves_uci
      else ""
    eval_loss_cp := evaluation.eval_loss_cp
    game_moves_uci :=
      if evaluation.game_moves_uci ≠ [] then
        String.intercalate "," evaluation.game_moves_uci
      else "" }

/-- `GameCache._row_to_evaluation(row)` (lines 90–110).  The source calls
`OpeningEvaluation(eco_code=..., ..., game_moves_uci=..., game_url=row
["game_url"] ...)` — but the `OpeningEvaluation` dataclass
(repertoire_analyzer.py, lines 16–32) has **no** `game_url` field, so the
constructor call raises `TypeError` before any value is built; every call to
this function fails. -/
def row_to_evaluation (row : EvalRow) :
    Except String OpeningEvaluation :=
  Except.error
    "TypeError: OpeningEvaluation.init got an unexpected keyword argument game_url"

/-- The field mapping `_row_to_evaluation` spells out in its keyword
arguments other than the invalid `game_url` one — the behavior the
repository's own tests (test_game_cache.py) assert: booleanize the stored
flag, split the comma-joined move lists (empty text giving the empty list),
default a missing loss to 0. -/
def row_to_evaluation_fields (row : EvalRow) : OpeningEvaluation :=
  { eco_code := row.eco_code
    eco_name := row.eco_name
    my_color := row.my_color
    deviation_ply := row.deviation_ply
    deviating_side := row.deviating_side
    eval_cp := row.eval_cp
    is_fully_booked := row.is_fully_booked_int != 0
    fen_at_deviation := row.fen_at_deviation
    best_move_uci := row.best_move_uci
    played_move_uci := row.played_move_uci
    book_moves_uci :=
      if row.book_moves_uci = "" then [] else splitComma row.book_moves_uci
    eval_loss_cp := row.eval_loss_cp
    game_moves_uci :=
      if row.game_moves_uci = "" then [] else splitComma row.game_moves_uci }

/-- The `opening_evaluations` table: rows keyed by
`PRIMARY KEY (game_url, depth)`. -/
def Store := List EvalRow

/-- `INSERT OR REPLACE`: drop any row with the same primary key, add the
new one. -/
def insert_or_replace (store : Store) (row : EvalRow) : Store :=
  row :: store.filter
    (fun r => !(r.game_url == row.game_url && r.depth == row.depth))

/-- `GameCache.save_evaluation(game_url, username, depth, evaluation)`
(lines 175–181). -/
def save_evaluation (store : Store) (game_url username : String)
    (depth : Nat) (evaluation : OpeningEvaluation) : Store :=
  insert_or_replace store (eval_to_row game_url username depth evaluation)

/-- `GameCache.save_evaluations_batch(username, depth, evals)`
(lines 183–190). -/
def save_evaluations_batch (store : Store) (username : String) (depth : Nat)
    (evals : List (String × OpeningEvaluation)) : Store :=
  evals.foldl
    (fun st p => insert_or_replace st (eval_to_row p.1 username depth p.2))
    store

/-- `GameCache.get_evaluation(game_url, depth)` (lines 112–125): look the
row up by `(game_url, depth)`, convert it when present.  The conversion's
outcome (success or raised `TypeError`) is the `Except` value. -/
def get_evaluation (store : Store) (game_url : String) (depth : Nat) :
    Option (Except String OpeningEvaluation) :=
  (store.find?
      (fun r => r.game_url == game_url && r.depth == depth)).map
    row_to_evaluation

/-- The spec's round-trip example: non-trivial list fields, a None-free
coaching payload. -/
def specEval : OpeningEvaluation :=
  { eco_code := some "B90", eco_name := "Sicilian", my_color := "white"
    deviation_ply := 6, deviating_side := "white", eval_cp := -25
    is_fully_booked := false
    fen_at_deviation :=
      "rnbqkbnr/pppppppp/8/8/4P3/8/PPPP1PPP/RNBQKBNR b KQkq - 0 1"
    best_move_uci := some "d2d4"
    played_move_uci := some "g1f3"
    book_moves_uci := ["e2e4", "d2d4", "c2c4"]
    eval_loss_cp := 120
    game_moves_uci := ["e2e4", "c7c5", "g1f3", "d7d6"] }

/-- **C1.** Saving the spec's example evaluation under
`("https://game/1", 18)` and retrieving it by the same key does **not**
return the original: `_row_to_evaluation` passes the keyword `game_url` to
an `OpeningEvaluation` dataclass that has no such field, so retrieval raises
`TypeError` (first conjunct).  The serialized row itself is lossless: the
field mapping written out in `_row_to_evaluation`'s other keyword arguments
recovers every field of the original exactly (second conjunct) — the
round-trip the claim describes is what the code's own tests expect, and it
fails only because of the stray `game_url` keyword. -/
theorem cache_round_trip_raises :
    get_evaluation
        (save_evaluation ([] : Store) "https://game/1" "bob" 18 specEval)
        "https://game/1" 18 =
      some (Except.error
        "TypeError: OpeningEvaluation.init got an unexpected keyword argument game_url") ∧
    row_to_evaluation_fields (eval_to_row "https://game/1" "bob" 18 specEval) =
      specEval := by
  constructor
  · rfl
  · decide

end ChessCoach
